import Mathlib

/-!
Verification of the camera-box audio intercom core: the VBAN protocol codec
(`src/vban.rs`), the jitter buffer, the look-ahead peak limiter, the sidetone
path and the muted capture step (`src/intercom.rs`), shallowly embedded as
executable Lean definitions over `Nat`/`Int`/`ℚ`.

Machine integers are modelled as `Nat` (bytes, `u32` counters) and `Int`
(`i16` samples); `f32` gain values are modelled as exact rationals, with the
`exp`-derived one-pole coefficients of the limiter taken as parameters.
-/

namespace CameraBox

/-! ## VBAN protocol codec (src/vban.rs) -/

/-- VBAN magic header bytes, ASCII "VBAN". -/
def VBAN_MAGIC : List Nat := [86, 66, 65, 78]

/-- VBAN header size in bytes. -/
def VBAN_HEADER_SIZE : Nat := 28

/-- Maximum stream name length including the null terminator. -/
def VBAN_STREAM_NAME_SIZE : Nat := 16

/-- VBAN sample-rate table (index -> Hz), as in `SAMPLE_RATES`. -/
def SAMPLE_RATES : List Nat :=
  [6000, 12000, 24000, 48000, 96000, 192000, 384000,
   8000, 16000, 32000, 64000, 128000, 256000, 512000,
   11025, 22050, 44100, 88200, 176400, 352800]

/-- VBAN audio codec formats, as in `enum VbanCodec`. -/
inductive VbanCodec where
  | pcm8 | pcm16 | pcm24 | pcm32 | float32 | float64
deriving DecidableEq, Repr

/-- The `u8` discriminant of a codec (`VbanCodec as u8`). -/
def VbanCodec.toByte : VbanCodec → Nat
  | .pcm8 => 0x00
  | .pcm16 => 0x01
  | .pcm24 => 0x02
  | .pcm32 => 0x03
  | .float32 => 0x04
  | .float64 => 0x05

/-- `struct VbanHeader`: byte-sized fields as `Nat`, the 16-byte stream name
as a list of bytes, the `u32` frame counter as a `Nat`. -/
structure VbanHeader where
  sample_rate_index : Nat
  samples_per_frame : Nat
  channels : Nat
  codec : Nat
  stream_name : List Nat
  frame_counter : Nat
deriving DecidableEq, Repr

/-- `sample_rate_to_index`: position of the first table entry equal to
`rate` (`SAMPLE_RATES.iter().position(|&r| r == rate)`). -/
def sample_rate_to_index (rate : Nat) : Option Nat :=
  SAMPLE_RATES.findIdx? (fun r => r == rate)

/-- `VbanHeader::new`: reject an unsupported sample rate, truncate the
stream name to 15 bytes and zero-pad to 16, store channels as
`channels.saturating_sub(1)` (Nat subtraction is saturating). -/
def VbanHeader.new (stream_name : List Nat) (sample_rate : Nat)
    (channels : Nat) (codec : VbanCodec) : Except String VbanHeader :=
  match sample_rate_to_index sample_rate with
  | none => .error "Unsupported sample rate"
  | some idx =>
    let name_len := min stream_name.length (VBAN_STREAM_NAME_SIZE - 1)
    let name_bytes := stream_name.take name_len ++
      List.replicate (VBAN_STREAM_NAME_SIZE - name_len) 0
    .ok { sample_rate_index := idx
          samples_per_frame := 0
          channels := channels - 1
          codec := codec.toByte
          stream_name := name_bytes
          frame_counter := 0 }

/-- `VbanHeader::sample_rate`: mask the index to 5 bits, look it up in the
table, defaulting to 48000 when out of range. -/
def VbanHeader.sample_rate (h : VbanHeader) : Nat :=
  let idx := h.sample_rate_index &&& 0x1F
  if idx < SAMPLE_RATES.length then SAMPLE_RATES.getD idx 0 else 48000

/-- `VbanHeader::num_channels`: `channels.saturating_add(1)` on a `u8`. -/
def VbanHeader.num_channels (h : VbanHeader) : Nat :=
  min (h.channels + 1) 255

/-- `u32::to_le_bytes` on a `Nat` below `2^32`. -/
def u32le (n : Nat) : List Nat :=
  [n % 256, n / 256 % 256, n / 65536 % 256, n / 16777216 % 256]

/-- `VbanHeader::encode`: the 28-byte wire image: magic, rate index (low 5
bits, audio protocol tag 0 in the high bits), `samples_per_frame - 1`
(saturating, masked to a byte), channels byte, codec byte, 16-byte name,
little-endian frame counter. -/
def VbanHeader.encode (h : VbanHeader) (samples_per_frame : Nat) : List Nat :=
  VBAN_MAGIC ++
    [h.sample_rate_index &&& 0x1F, (samples_per_frame - 1) &&& 0xFF,
     h.channels, h.codec] ++
    h.stream_name ++ u32le h.frame_counter

/-- `VbanHeader::decode`: typed failure on a short buffer, a wrong magic, or
a non-audio protocol tag (upper 3 bits of byte 4); otherwise read the fields
back out of the buffer. -/
def VbanHeader.decode (data : List Nat) : Except String VbanHeader :=
  if data.length < VBAN_HEADER_SIZE then
    .error "VBAN packet too short"
  else if data.take 4 ≠ VBAN_MAGIC then
    .error "Invalid VBAN magic"
  else if data.getD 4 0 &&& 0xE0 ≠ 0 then
    .error "Not a VBAN audio packet"
  else
    .ok { sample_rate_index := data.getD 4 0 &&& 0x1F
          samples_per_frame := data.getD 5 0
          channels := data.getD 6 0
          codec := data.getD 7 0
          stream_name := (data.drop 8).take 16
          frame_counter := data.getD 24 0 + 256 * data.getD 25 0 +
            65536 * data.getD 26 0 + 16777216 * data.getD 27 0 }

/-- `VbanHeader::stream_name_str`: the prefix of the name field before the
first zero byte. -/
def VbanHeader.stream_name_str (h : VbanHeader) : List Nat :=
  h.stream_name.takeWhile (fun b => b != 0)

/-! ## Jitter buffer (`AudioBuffer` / `TestableAudioBuffer`, src/intercom.rs)

The eviction loop `while samples.len() + data.len() > capacity
{ samples.pop_front(); }` is embedded with an explicit fuel argument:
`VecDeque::pop_front` on an empty deque is a no-op (it returns `None`), which
`List.tail [] = []` models exactly, so one loop step is
`buf := buf.tail`. `none` means the loop has not finished within the given
fuel; `evictFuel_mono` and `evictFuel_length_complete` below show that
`buf.length` steps are enough whenever the loop terminates at all, so
`AudioBuffer.push_samples` (which uses that fuel) is the loop's exact
partial-function semantics. -/

/-- One fuel-indexed run of the eviction `while` loop of `push_samples`:
`dlen` is `data.len()`. -/
def evictFuel : Nat → List Int → Nat → Nat → Option (List Int)
  | 0, buf, dlen, cap =>
      if buf.length + dlen > cap then none else some buf
  | fuel + 1, buf, dlen, cap =>
      if buf.length + dlen > cap then evictFuel fuel buf.tail dlen cap
      else some buf

/-- The audio ring buffer: a deque of `i16` samples plus its capacity. -/
structure AudioBuffer where
  samples : List Int
  capacity : Nat
deriving DecidableEq, Repr

/-- `AudioBuffer::new`. -/
def AudioBuffer.new (capacity : Nat) : AudioBuffer :=
  { samples := [], capacity := capacity }

/-- `AudioBuffer::push_samples`: run the eviction loop (with the provably
sufficient fuel `samples.length`), then append `data`; `none` when the
eviction loop diverges. -/
def AudioBuffer.push_samples (b : AudioBuffer) (data : List Int) :
    Option AudioBuffer :=
  (evictFuel b.samples.length b.samples data.length b.capacity).map
    (fun s => { b with samples := s ++ data })

/-- `AudioBuffer::pop_samples`: drain and return up to `count` samples from
the front. -/
def AudioBuffer.pop_samples (b : AudioBuffer) (count : Nat) :
    List Int × AudioBuffer :=
  let available := min count b.samples.length
  (b.samples.take available, { b with samples := b.samples.drop available })

/-! ## Peak limiter (`PeakLimiter`, src/intercom.rs)

`f32` dynamics values are modelled as exact rationals. The conversions
`i16 -> f32`, `abs`, the division by the power of two `32768.0` and `f32::max`
are exact in `f32` for these operand ranges, so the peak computation agrees
exactly; the attack/release coefficients (`exp` of a negative number, hence
in `(0,1)`) and the products/divisions in the envelope path are rounded in
`f32` but every property proved below holds for arbitrary rational values of
those quantities. The `as i16` casts (which truncate toward zero) are
modelled by `ratTruncToInt`. -/

/-- Truncation toward zero, the semantics of Rust's `f as i16` on an
in-range value. -/
def ratTruncToInt (q : ℚ) : Int :=
  if q < 0 then ⌈q⌉ else ⌊q⌋

/-- Rust `clamp` on rationals (`lo ≤ hi` in all uses below). -/
def ratClamp (x lo hi : ℚ) : ℚ := max lo (min hi x)

/-- Rust `clamp` on integers. -/
def intClamp (x lo hi : Int) : Int := max lo (min hi x)

/-- `struct PeakLimiter`: threshold and envelope as rationals, the two
one-pole coefficients as rationals (the source computes them with `f32::exp`
from fixed time constants), the look-ahead delay line as a deque of `i16`
samples. -/
structure PeakLimiter where
  threshold : ℚ
  attackCoeff : ℚ
  releaseCoeff : ℚ
  envelope : ℚ
  lookaheadBuffer : List Int
  lookaheadSamples : Nat
deriving DecidableEq, Repr

/-- `PeakLimiter::new`: clamp the threshold into `[0.01, 1.0]`, start with
envelope `1.0` and an empty delay line. The `exp`-derived coefficients and
the lookahead sample count (`(0.0005 * sample_rate) as usize`, e.g. 24 at
48 kHz) are transcendental/float computations taken here as parameters. -/
def PeakLimiter.new (threshold attackCoeff releaseCoeff : ℚ)
    (lookaheadSamples : Nat) : PeakLimiter :=
  { threshold := ratClamp threshold (1/100) 1
    attackCoeff := attackCoeff
    releaseCoeff := releaseCoeff
    envelope := 1
    lookaheadBuffer := []
    lookaheadSamples := lookaheadSamples }

/-- The peak scan of `process`: `max(|x|)/32768` over the delay window
(`fold(0.0, f32::max)` over `(s as f32).abs() / 32768.0`; exact in `f32`
since 32768 is a power of two and `|s| ≤ 32768`). -/
def limiterPeak (rest : List Int) : ℚ :=
  rest.foldl (fun (m : ℚ) (s : Int) => max m (|(s : ℚ)| / 32768)) 0

/-- The target gain of `process`: `threshold / peak` when the peak exceeds
the threshold, else unity. -/
def limiterTargetGain (threshold peak : ℚ) : ℚ :=
  if threshold < peak then threshold / peak else 1

/-- `PeakLimiter::process`: push the input into the delay line; while the
line has not yet exceeded `lookahead_samples` entries, return 0; otherwise
pop the delayed sample, take the peak of the remaining window, follow the
target gain with the attack/release one-pole, scale the delayed sample,
clamp to the `i16` range, and hard-clip to `±(threshold * 32767) as i16`. -/
def PeakLimiter.process (l : PeakLimiter) (input : Int) : Int × PeakLimiter :=
  let buf := l.lookaheadBuffer ++ [input]
  if buf.length ≤ l.lookaheadSamples then
    (0, { l with lookaheadBuffer := buf })
  else
    let delayed := buf.headD 0
    let rest := buf.tail
    let peak := limiterPeak rest
    let target_gain := limiterTargetGain l.threshold peak
    let coeff := if target_gain < l.envelope then l.attackCoeff
                 else l.releaseCoeff
    let env : ℚ := l.envelope * coeff + target_gain * (1 - coeff)
    let limited : Int :=
      ratTruncToInt (ratClamp ((delayed : ℚ) * env) (-32768) 32767)
    let hard_clip_max : Int := ratTruncToInt (l.threshold * 32767)
    (intClamp limited (-hard_clip_max) hard_clip_max,
     { l with envelope := env, lookaheadBuffer := rest })

/-- `PeakLimiter::process_buffer`, returning the outputs and the final
limiter state. -/
def processList (l : PeakLimiter) : List Int → List Int × PeakLimiter
  | [] => ([], l)
  | x :: xs =>
    let p := l.process x
    let r := processList p.2 xs
    (p.1 :: r.1, r.2)

/-- `PeakLimiter::reset`: envelope back to 1, delay line cleared. -/
def PeakLimiter.reset (l : PeakLimiter) : PeakLimiter :=
  { l with envelope := 1, lookaheadBuffer := [] }

/-! ## Audio engine session state (`run_intercom_inner`, src/intercom.rs) -/

/-- The initial value of the mute flag:
`let muted = Arc::new(AtomicBool::new(true))`. -/
def mutedInit : Bool := true

/-- The sidetone buffer at session start:
`VecDeque::<i16>::with_capacity(1024)` allocates room for 1024 samples but
contains none, so the deque starts empty. -/
def sidetoneBufInit : List Int := []

/-- The allocation size of the sidetone deque (`with_capacity(1024)`). -/
def sidetoneAllocCapacity : Nat := 1024

/-- The capture path's sidetone write: each sample is appended only while
fewer than 512 samples are queued (`if sidetone_buf.len() < 512`). -/
def sidetonePush (buf : List Int) (samples : List Int) : List Int :=
  samples.foldl (fun b s => if b.length < 512 then b ++ [s] else b) buf

/-- The playback mixer's per-slot sidetone read: on an even (left) slot,
`pop_front().unwrap_or(0)`; on an odd (right) slot,
`front().copied().unwrap_or(0)`. Returns the mono sample and the deque
afterwards. -/
def sidetoneReadMono (buf : List Int) (i : Nat) : Int × List Int :=
  if i % 2 = 0 then (buf.headD 0, buf.tail) else (buf.headD 0, buf)

/-- `i16::to_le_bytes`: the two's-complement little-endian image of an
`i16` sample. -/
def i16le (s : Int) : List Nat :=
  let u := (s.emod 65536).toNat
  [u % 256, u / 256]

/-- Splitting the processed samples into sub-chunks of at most 128
(`vban_samples.chunks(CHUNK_SIZE)` with `CHUNK_SIZE = 128`). -/
def chunks128 : List Int → List (List Int)
  | [] => []
  | x :: xs =>
    (x :: xs).take 128 :: chunks128 ((x :: xs).drop 128)
termination_by l => l.length
decreasing_by simp [List.length_drop]; omega

/-- One outbound VBAN packet as built inline by the send loop: the literal
header bytes (`"VBAN"`, rate index 3 = 48 kHz, `samples_per_frame - 1`,
channels byte 1, codec byte 1 = PCM16, the 16-byte stream name, the
little-endian frame counter) followed by the mono chunk duplicated to
interleaved stereo PCM16. -/
def buildPacket (streamName : List Nat) (frameCounter : Nat)
    (chunk : List Int) : List Nat :=
  [86, 66, 65, 78, 3, (chunk.length - 1) &&& 0xFF, 1, 1] ++
    streamName ++ u32le frameCounter ++
    (chunk.flatMap (fun s => [s, s])).flatMap i16le

/-- The send loop over the chunks: emit one packet per chunk, advancing the
frame counter with `u32::wrapping_add(1)` each time. Returns the packets and
the final counter. -/
def sendChunks (streamName : List Nat) (frameCounter : Nat) :
    List (List Int) → List (List Nat) × Nat
  | [] => ([], frameCounter)
  | c :: rest =>
    let p := buildPacket streamName frameCounter c
    let r := sendChunks streamName ((frameCounter + 1) % 4294967296) rest
    (p :: r.1, r.2)

/-- The engine state touched by one capture step of the period loop. -/
structure EngineState where
  muted : Bool
  frameCounter : Nat
  framesSent : Nat
  samplesCaptured : Nat
  sidetoneBuf : List Int
  limiter : Option PeakLimiter
deriving Repr

/-- The pre-clip threshold applied before the microphone gain
(`PRE_CLIP_THRESHOLD: i16 = 30000`). -/
def PRE_CLIP_THRESHOLD : Int := 30000

/-- The per-sample VBAN output conditioning: clamp to
`±PRE_CLIP_THRESHOLD`, multiply by the mic gain, clamp to the `i16`
range, truncate (`as i16`). -/
def micConditioned (micGain : ℚ) (s : Int) : Int :=
  ratTruncToInt
    (ratClamp ((intClamp s (-PRE_CLIP_THRESHOLD) PRE_CLIP_THRESHOLD : ℚ) *
      micGain) (-32768) 32767)

/-- The `Ok(frames) if frames > 0` capture branch of the period loop:
always count the captured samples; when not muted, additionally feed the raw
samples to the sidetone deque, condition and (optionally) limit the VBAN
copy, chunk it, and send one packet per chunk, advancing the frame counter
and the sent-frames counter. Returns the new state and the packets sent. -/
def captureStep (micGain : ℚ) (streamName : List Nat) (s : EngineState)
    (captured : List Int) : EngineState × List (List Nat) :=
  let s1 := { s with samplesCaptured := s.samplesCaptured + captured.length }
  if s.muted then
    (s1, [])
  else
    let st := sidetonePush s.sidetoneBuf captured
    let pre := captured.map (micConditioned micGain)
    let vb := match s.limiter with
      | some lim =>
        let r := processList lim pre
        (r.1, some r.2)
      | none => (pre, none)
    let chunks := chunks128 vb.1
    let sent := sendChunks streamName s.frameCounter chunks
    ({ s1 with sidetoneBuf := st
               limiter := vb.2
               frameCounter := sent.2
               framesSent := s.framesSent + chunks.length }, sent.1)

/-! ## Helper lemmas -/

theorem sample_rate_to_index_none {rate : Nat} (h : rate ∉ SAMPLE_RATES) :
    sample_rate_to_index rate = none := by
  unfold sample_rate_to_index
  rw [List.findIdx?_eq_none_iff]
  intro x hx
  simp only [beq_eq_false_iff_ne, ne_eq]
  exact fun hxr => h (hxr ▸ hx)

theorem sample_rate_to_index_some {rate i : Nat}
    (h : sample_rate_to_index rate = some i) :
    i < SAMPLE_RATES.length ∧ SAMPLE_RATES.getD i 0 = rate := by
  unfold sample_rate_to_index at h
  rw [List.findIdx?_eq_some_iff_getElem] at h
  obtain ⟨hi, hp, -⟩ := h
  refine ⟨hi, ?_⟩
  rw [List.getD_eq_getElem?_getD, List.getElem?_eq_getElem hi]
  simpa [beq_iff_eq] using hp

theorem sample_rate_to_index_mem {rate : Nat} (h : rate ∈ SAMPLE_RATES) :
    ∃ i, sample_rate_to_index rate = some i := by
  cases hs : sample_rate_to_index rate with
  | some i => exact ⟨i, rfl⟩
  | none =>
    unfold sample_rate_to_index at hs
    rw [List.findIdx?_eq_none_iff] at hs
    have := hs rate h
    simp at this

theorem evictFuel_of_fits (buf : List Int) (dlen cap : Nat)
    (h : ¬ buf.length + dlen > cap) :
    ∀ fuel, evictFuel fuel buf dlen cap = some buf := by
  intro fuel
  cases fuel with
  | zero => simp only [evictFuel, if_neg h]
  | succ n => simp only [evictFuel, if_neg h]

theorem evictFuel_nil_none (dlen cap : Nat) (h : dlen > cap) :
    ∀ fuel, evictFuel fuel ([] : List Int) dlen cap = none := by
  have hc : ([] : List Int).length + dlen > cap := by simpa using h
  intro fuel
  induction fuel with
  | zero => simp only [evictFuel, if_pos hc]
  | succ n ih =>
    simp only [evictFuel, if_pos hc, List.tail_nil]
    exact ih

theorem evictFuel_mono :
    ∀ (fuel : Nat) (buf : List Int) (dlen cap : Nat) (r : List Int),
      evictFuel fuel buf dlen cap = some r →
      evictFuel (fuel + 1) buf dlen cap = some r := by
  intro fuel
  induction fuel with
  | zero =>
    intro buf dlen cap r h
    by_cases hc : buf.length + dlen > cap
    · simp only [evictFuel, if_pos hc] at h
      exact absurd h (by simp)
    · simp only [evictFuel, if_neg hc] at h ⊢
      exact h
  | succ n ih =>
    intro buf dlen cap r h
    by_cases hc : buf.length + dlen > cap
    · simp only [evictFuel, if_pos hc] at h ⊢
      exact ih _ _ _ _ h
    · simp only [evictFuel, if_neg hc] at h ⊢
      exact h

/-- Whenever the eviction loop terminates within any amount of fuel, it
terminates within `buf.length` steps with the same result: `buf.length` is
adequate fuel, so `AudioBuffer.push_samples` is the loop's exact
partial-function semantics. -/
theorem evictFuel_length_complete :
    ∀ (fuel : Nat) (buf : List Int) (dlen cap : Nat) (r : List Int),
      evictFuel fuel buf dlen cap = some r →
      evictFuel buf.length buf dlen cap = some r := by
  intro fuel
  induction fuel with
  | zero =>
    intro buf dlen cap r h
    by_cases hc : buf.length + dlen > cap
    · simp only [evictFuel, if_pos hc] at h
      exact absurd h (by simp)
    · simp only [evictFuel, if_neg hc] at h
      injection h with h
      subst h
      exact evictFuel_of_fits _ _ _ hc _
  | succ n ih =>
    intro buf dlen cap r h
    by_cases hc : buf.length + dlen > cap
    · cases buf with
      | nil =>
        simp only [evictFuel, if_pos hc, List.tail_nil] at h
        rw [evictFuel_nil_none dlen cap (by simpa using hc) n] at h
        exact absurd h (by simp)
      | cons x xs =>
        simp only [evictFuel, if_pos hc, List.tail_cons] at h
        have hx := ih xs dlen cap r h
        simp only [List.length_cons, evictFuel]
        rw [if_pos (by simpa using hc), List.tail_cons]
        exact hx
    · simp only [evictFuel, if_neg hc] at h
      injection h with h
      subst h
      exact evictFuel_of_fits _ _ _ hc _

/-! ## Claims -/

/-- C2: `VbanHeader::decode` is a total function (never panics: it always
returns either a typed failure or a header), and it succeeds exactly when the
buffer has at least 28 bytes, starts with the magic "VBAN", and the upper 3
bits of byte 4 are zero (the audio protocol tag); on every other
28-byte-or-longer buffer it fails with a typed error. -/
theorem vban_decode_rejection (data : List Nat) :
    ((∃ h, VbanHeader.decode data = .ok h) ∨
      (∃ e, VbanHeader.decode data = .error e)) ∧
    ((∃ h, VbanHeader.decode data = .ok h) ↔
      (VBAN_HEADER_SIZE ≤ data.length ∧ data.take 4 = VBAN_MAGIC ∧
        data.getD 4 0 &&& 0xE0 = 0)) := by
  unfold VbanHeader.decode
  split_ifs with h1 h2 h3 <;> simp_all

/-- C3: the claim that `push_samples` always terminates fails: with an input
slice strictly longer than the capacity the eviction `while` loop never
exits, because once the deque is empty `pop_front` is a no-op while the loop
condition `samples.len() + data.len() > capacity` stays true. Concretely,
on a buffer of capacity 5, pushing 6 samples runs forever: no fuel bound
suffices for the loop, and `push_samples` has no terminating run. -/
theorem push_samples_diverges_beyond_capacity :
    (∀ fuel : Nat, evictFuel fuel ([] : List Int) 6 5 = none) ∧
    (AudioBuffer.new 5).push_samples [1, 2, 3, 4, 5, 6] = none := by
  constructor
  · exact fun fuel => evictFuel_nil_none 6 5 (by omega) fuel
  · rfl

/-- C4: jitter-buffer FIFO order with front eviction: capacity 5,
`push_samples [1,2,3,4,5]` then `push_samples [6,7,8]` then `pop_samples 5`
returns exactly `[4,5,6,7,8]`. -/
theorem jitter_fifo_eviction :
    ((AudioBuffer.new 5).push_samples [1, 2, 3, 4, 5]).bind
        (fun b => b.push_samples [6, 7, 8]) =
      some { samples := [4, 5, 6, 7, 8], capacity := 5 } ∧
    (AudioBuffer.pop_samples { samples := [4, 5, 6, 7, 8], capacity := 5 }
        5).1 = [4, 5, 6, 7, 8] := by
  decide

/-- C8: the claim that the sidetone buffer is pre-filled with silence to half
its capacity at creation is false: `run_intercom_inner` creates it with
`VecDeque::with_capacity(1024)`, which allocates but leaves the deque empty
(length 0, not 512). -/
theorem sidetone_no_prefill_at_creation :
    ¬ sidetoneBufInit.length = sidetoneAllocCapacity / 2 := by
  decide

/-- C8 (amended): at creation the sidetone buffer is empty, and every mixer
read from it before the capture path has written anything yields the silence
sample 0 (the empty-deque reads fall back to 0 via `unwrap_or(0)`). -/
theorem sidetone_starts_empty_reads_silence :
    sidetoneBufInit = [] ∧
    ∀ i, (sidetoneReadMono sidetoneBufInit i).1 = 0 := by
  refine ⟨rfl, fun i => ?_⟩
  unfold sidetoneReadMono sidetoneBufInit
  split_ifs <;> rfl

/-! ## Limiter lemmas -/

theorem processList_warmup_take (inputs : List Int) :
    ∀ l : PeakLimiter,
      ((processList l inputs).1).take
          (l.lookaheadSamples - l.lookaheadBuffer.length) =
        List.replicate
          (min (l.lookaheadSamples - l.lookaheadBuffer.length)
            inputs.length) 0 := by
  induction inputs with
  | nil => intro l; simp [processList]
  | cons x xs ih =>
    intro l
    by_cases hb : (l.lookaheadBuffer ++ [x]).length ≤ l.lookaheadSamples
    · have hlen : l.lookaheadBuffer.length + 1 ≤ l.lookaheadSamples := by
        simpa using hb
      simp only [processList, PeakLimiter.process, if_pos hb]
      have hr := ih { l with lookaheadBuffer := l.lookaheadBuffer ++ [x] }
      simp only [List.length_append, List.length_cons, List.length_nil] at hr
      have hk : l.lookaheadSamples - l.lookaheadBuffer.length =
          (l.lookaheadSamples - (l.lookaheadBuffer.length + 1)) + 1 := by
        omega
      rw [hk, List.take_succ_cons, hr, ← List.replicate_succ]
      congr 1
      simp only [List.length_cons]
      omega
    · have hz : l.lookaheadSamples - l.lookaheadBuffer.length = 0 := by
        simp only [List.length_append, List.length_cons, List.length_nil]
          at hb
        omega
      simp [hz]

theorem process_threshold_eq (l : PeakLimiter) (x : Int) :
    ((l.process x).2).threshold = l.threshold := by
  unfold PeakLimiter.process
  dsimp only
  split <;> rfl

theorem process_output_abs_le (l : PeakLimiter) (x : Int)
    (hM : 0 ≤ ratTruncToInt (l.threshold * 32767)) :
    |(l.process x).1| ≤ ratTruncToInt (l.threshold * 32767) := by
  unfold PeakLimiter.process
  dsimp only
  split
  · simpa using hM
  · simp only [intClamp]
    rw [abs_le]
    exact ⟨le_max_left _ _, max_le (by linarith) (min_le_left _ _)⟩

theorem processList_output_abs_le (inputs : List Int) :
    ∀ l : PeakLimiter, 0 ≤ ratTruncToInt (l.threshold * 32767) →
      ∀ y ∈ (processList l inputs).1,
        |y| ≤ ratTruncToInt (l.threshold * 32767) := by
  induction inputs with
  | nil => intro l hM y hy; simp [processList] at hy
  | cons x xs ih =>
    intro l hM y hy
    simp only [processList, List.mem_cons] at hy
    rcases hy with rfl | hy
    · exact process_output_abs_le l x hM
    · have ht := process_threshold_eq l x
      have hr := ih (l.process x).2 (by rw [ht]; exact hM) y hy
      rwa [ht] at hr

theorem foldl_max_le (l : List Int) :
    ∀ m : ℚ,
      m ≤ l.foldl (fun (acc : ℚ) (s : Int) => max acc (|(s : ℚ)| / 32768))
        m := by
  induction l with
  | nil => intro m; simp
  | cons x xs ih =>
    intro m
    rw [List.foldl_cons]
    exact le_trans (le_max_left _ _) (ih _)

theorem limiterPeak_nonneg (rest : List Int) : 0 ≤ limiterPeak rest :=
  foldl_max_le rest 0

theorem limiterTargetGain_mem (t pk : ℚ) (ht0 : 0 < t) :
    0 < limiterTargetGain t pk ∧ limiterTargetGain t pk ≤ 1 := by
  unfold limiterTargetGain
  split_ifs with h
  · have hpk : 0 < pk := lt_trans ht0 h
    exact ⟨div_pos ht0 hpk, by rw [div_le_one hpk]; linarith⟩
  · norm_num

theorem envelope_step_mem (env tg c : ℚ) (he0 : 0 < env) (he1 : env ≤ 1)
    (htg0 : 0 < tg) (htg1 : tg ≤ 1) (hc0 : 0 < c) (hc1 : c < 1) :
    0 < env * c + tg * (1 - c) ∧ env * c + tg * (1 - c) ≤ 1 := by
  constructor
  · have h1 : 0 < env * c := mul_pos he0 hc0
    have h2 : 0 < tg * (1 - c) := mul_pos htg0 (by linarith)
    linarith
  · have h1 : env * c ≤ c := by nlinarith
    have h2 : tg * (1 - c) ≤ 1 - c := by nlinarith
    linarith

/-- The state invariant of the limiter: threshold in `[0.01, 1]`, envelope
gain in `(0, 1]`. -/
def LimiterInv (l : PeakLimiter) : Prop :=
  1/100 ≤ l.threshold ∧ l.threshold ≤ 1 ∧ 0 < l.envelope ∧ l.envelope ≤ 1

theorem process_inv (l : PeakLimiter) (x : Int)
    (hA0 : 0 < l.attackCoeff) (hA1 : l.attackCoeff < 1)
    (hR0 : 0 < l.releaseCoeff) (hR1 : l.releaseCoeff < 1)
    (hl : LimiterInv l) : LimiterInv (l.process x).2 := by
  obtain ⟨ht0, ht1, he0, he1⟩ := hl
  unfold PeakLimiter.process
  by_cases hb : (l.lookaheadBuffer ++ [x]).length ≤ l.lookaheadSamples
  · rw [if_pos hb]
    exact ⟨ht0, ht1, he0, he1⟩
  · rw [if_neg hb]
    have htpos : 0 < l.threshold := by linarith
    obtain ⟨htg0, htg1⟩ :=
      limiterTargetGain_mem l.threshold
        (limiterPeak (l.lookaheadBuffer ++ [x]).tail) htpos
    refine ⟨ht0, ht1, ?_⟩
    by_cases hcf :
        limiterTargetGain l.threshold
          (limiterPeak (l.lookaheadBuffer ++ [x]).tail) < l.envelope
    · simp only [LimiterInv, if_pos hcf]
      have := envelope_step_mem l.envelope _ l.attackCoeff he0 he1 htg0 htg1
        hA0 hA1
      exact this
    · simp only [LimiterInv, if_neg hcf]
      have := envelope_step_mem l.envelope _ l.releaseCoeff he0 he1 htg0 htg1
        hR0 hR1
      exact this

/-- C5: for every freshly constructed limiter (any clamped threshold, any
one-pole coefficients, any lookahead length `n`) and every input sequence,
the first `n` outputs of `process` are exactly 0. -/
theorem limiter_warmup_silence (t a r : ℚ) (n : Nat) (inputs : List Int) :
    ((processList (PeakLimiter.new t a r n) inputs).1).take n =
      List.replicate (min n inputs.length) 0 := by
  have h := processList_warmup_take inputs (PeakLimiter.new t a r n)
  simpa [PeakLimiter.new] using h

theorem new_threshold_15 (a r : ℚ) (n : Nat) :
    (PeakLimiter.new (3/20) a r n).threshold = 3/20 := by
  norm_num [PeakLimiter.new, ratClamp, min_def, max_def]

theorem new_threshold_50 (a r : ℚ) (n : Nat) :
    (PeakLimiter.new (1/2) a r n).threshold = 1/2 := by
  norm_num [PeakLimiter.new, ratClamp, min_def, max_def]

theorem truncToInt_15 : ratTruncToInt ((3/20 : ℚ) * 32767) = 4915 := by
  simp only [ratTruncToInt]
  rw [if_neg (by norm_num), Int.floor_eq_iff]
  norm_num

theorem truncToInt_50 : ratTruncToInt ((1/2 : ℚ) * 32767) = 16383 := by
  simp only [ratTruncToInt]
  rw [if_neg (by norm_num), Int.floor_eq_iff]
  norm_num

/-- C6: the hard clipper bounds every output sample (in particular every
sample after warm-up and settling, under any input including sustained
full-scale 32767): at threshold 0.15 the clip level is
`(0.15 * 32767) as i16 = 4915 ≤ round(0.15*32767) = 4915 ≤ 4916`, and at
threshold 0.5 it is `16383 ≤ round(0.5*32767) = 16384`. -/
theorem limiter_hard_clip_bound (a r : ℚ) (n : Nat) (inputs : List Int) :
    (∀ y ∈ (processList (PeakLimiter.new (3/20) a r n) inputs).1,
        |y| ≤ 4915) ∧
    (∀ y ∈ (processList (PeakLimiter.new (1/2) a r n) inputs).1,
        |y| ≤ 16384) ∧
    (∀ y ∈ (processList (PeakLimiter.new (3/20) a r n) inputs).1,
        |y| ≤ 4916) := by
  have hM15 : ratTruncToInt
      ((PeakLimiter.new (3/20) a r n).threshold * 32767) = 4915 := by
    rw [new_threshold_15, truncToInt_15]
  have hM50 : ratTruncToInt
      ((PeakLimiter.new (1/2) a r n).threshold * 32767) = 16383 := by
    rw [new_threshold_50, truncToInt_50]
  have h15 : ∀ y ∈ (processList (PeakLimiter.new (3/20) a r n) inputs).1,
      |y| ≤ 4915 := by
    intro y hy
    have hb := processList_output_abs_le inputs (PeakLimiter.new (3/20) a r n)
      (by rw [hM15]; norm_num) y hy
    rwa [hM15] at hb
  refine ⟨h15, ?_, fun y hy => le_trans (h15 y hy) (by norm_num)⟩
  intro y hy
  have hb := processList_output_abs_le inputs (PeakLimiter.new (1/2) a r n)
    (by rw [hM50]; norm_num) y hy
  rw [hM50] at hb
  omega

/-- C6 witness: concrete instantiation at lookahead 1 with a one-sample
input (the warm-up output 0 is a member of the output list). -/
theorem limiter_hard_clip_bound_witness :
    |(0 : Int)| ≤ 4915 ∧ |(0 : Int)| ≤ 16384 := by
  have hm15 : (0 : Int) ∈
      (processList (PeakLimiter.new (3/20) (4/5) (9/10) 1) [7]).1 := by
    rw [show (processList (PeakLimiter.new (3/20) (4/5) (9/10) 1) [7]).1 =
      [0] from rfl]
    exact List.mem_singleton.mpr rfl
  have hm50 : (0 : Int) ∈
      (processList (PeakLimiter.new (1/2) (4/5) (9/10) 1) [7]).1 := by
    rw [show (processList (PeakLimiter.new (1/2) (4/5) (9/10) 1) [7]).1 =
      [0] from rfl]
    exact List.mem_singleton.mpr rfl
  exact ⟨(limiter_hard_clip_bound (4/5) (9/10) 1 [7]).1 0 hm15,
    (limiter_hard_clip_bound (4/5) (9/10) 1 [7]).2.1 0 hm50⟩

/-- C7: the limiter state invariant (threshold in `[0.01, 1.0]`, envelope in
`(0, 1]`) is established by `new` for any requested threshold (0.001 clamps
to 0.01, 2.0 clamps to 1.0, envelope starts at 1.0) and preserved by
`process` (for the actual `exp`-derived coefficients, which lie in `(0,1)`)
and by `reset`. -/
theorem limiter_state_invariant (t a r : ℚ) (n : Nat) (l : PeakLimiter)
    (x : Int)
    (hA0 : 0 < l.attackCoeff) (hA1 : l.attackCoeff < 1)
    (hR0 : 0 < l.releaseCoeff) (hR1 : l.releaseCoeff < 1)
    (hl : LimiterInv l) :
    LimiterInv (PeakLimiter.new t a r n) ∧
    (PeakLimiter.new (1/1000) a r n).threshold = 1/100 ∧
    (PeakLimiter.new 2 a r n).threshold = 1 ∧
    (PeakLimiter.new t a r n).envelope = 1 ∧
    LimiterInv (l.process x).2 ∧
    LimiterInv l.reset := by
  obtain ⟨ht0, ht1, -, -⟩ := id hl
  refine ⟨?_, ?_, ?_, rfl, process_inv l x hA0 hA1 hR0 hR1 hl, ?_⟩
  · refine ⟨le_max_left _ _, max_le (by norm_num) (min_le_left _ _),
      by norm_num [PeakLimiter.new], by norm_num [PeakLimiter.new]⟩
  · norm_num [PeakLimiter.new, ratClamp, min_def, max_def]
  · norm_num [PeakLimiter.new, ratClamp, min_def, max_def]
  · exact ⟨ht0, ht1, by norm_num [PeakLimiter.reset],
      by norm_num [PeakLimiter.reset]⟩

/-- C7 witness: concrete instantiation with coefficients 4/5 and 9/10 and a
fresh limiter at threshold 1/2. -/
theorem limiter_state_invariant_witness :
    LimiterInv (PeakLimiter.new (1/2) (4/5) (9/10) 24) ∧
    (PeakLimiter.new (1/1000) (4/5) (9/10) 24).threshold = 1/100 ∧
    (PeakLimiter.new 2 (4/5) (9/10) 24).threshold = 1 ∧
    (PeakLimiter.new (1/2) (4/5) (9/10) 24).envelope = 1 ∧
    LimiterInv ((PeakLimiter.new (1/2) (4/5) (9/10) 24).process 1000).2 ∧
    LimiterInv (PeakLimiter.new (1/2) (4/5) (9/10) 24).reset :=
  limiter_state_invariant (1/2) (4/5) (9/10) 24
    (PeakLimiter.new (1/2) (4/5) (9/10) 24) 1000
    (by norm_num [PeakLimiter.new]) (by norm_num [PeakLimiter.new])
    (by norm_num [PeakLimiter.new]) (by norm_num [PeakLimiter.new])
    (by norm_num [LimiterInv, PeakLimiter.new, ratClamp, min_def, max_def])

/-- C9: the engine's mute flag is initialized to muted at session start, and
in any period-loop capture step taken while the flag reads muted no VBAN
packet is emitted, the frame counter and the sent-frames counter do not
advance, yet the captured-samples counter still increases by the number of
frames read. -/
theorem muted_capture_no_send (g : ℚ) (streamName : List Nat)
    (s : EngineState) (captured : List Int) (hm : s.muted = true) :
    mutedInit = true ∧
    (captureStep g streamName s captured).2 = [] ∧
    ((captureStep g streamName s captured).1).frameCounter = s.frameCounter ∧
    ((captureStep g streamName s captured).1).framesSent = s.framesSent ∧
    ((captureStep g streamName s captured).1).samplesCaptured =
      s.samplesCaptured + captured.length := by
  unfold captureStep
  rw [if_pos hm]
  exact ⟨rfl, rfl, rfl, rfl, rfl⟩

/-- C9 witness: concrete muted state with two captured samples. -/
theorem muted_capture_no_send_witness :
    mutedInit = true ∧
    (captureStep 8 [99, 97, 109, 49]
        { muted := true, frameCounter := 41, framesSent := 7,
          samplesCaptured := 100, sidetoneBuf := [], limiter := none }
        [5, 6]).2 = [] ∧
    ((captureStep 8 [99, 97, 109, 49]
        { muted := true, frameCounter := 41, framesSent := 7,
          samplesCaptured := 100, sidetoneBuf := [], limiter := none }
        [5, 6]).1).frameCounter = 41 ∧
    ((captureStep 8 [99, 97, 109, 49]
        { muted := true, frameCounter := 41, framesSent := 7,
          samplesCaptured := 100, sidetoneBuf := [], limiter := none }
        [5, 6]).1).framesSent = 7 ∧
    ((captureStep 8 [99, 97, 109, 49]
        { muted := true, frameCounter := 41, framesSent := 7,
          samplesCaptured := 100, sidetoneBuf := [], limiter := none }
        [5, 6]).1).samplesCaptured = 100 + ([5, 6] : List Int).length :=
  muted_capture_no_send 8 [99, 97, 109, 49]
    { muted := true, frameCounter := 41, framesSent := 7,
      samplesCaptured := 100, sidetoneBuf := [], limiter := none }
    [5, 6] rfl

theorem land31_self : ∀ b < 32, b &&& 31 = b := by decide

theorem land224_zero : ∀ b < 32, b &&& 224 = 0 := by decide

/-- C10: an unsupported sample rate is rejected by `VbanHeader::new` at
construction time; the inverse lookup `sample_rate` maps every table index
back to exactly the table entry in Hz; and whenever `sample_rate_to_index`
succeeds the index points back to exactly the given rate (no
approximation). -/
theorem sample_rate_table_strict (name : List Nat) (rate channels : Nat)
    (codec : VbanCodec) (i r j : Nat)
    (hrate : rate ∉ SAMPLE_RATES) (hi : i < SAMPLE_RATES.length)
    (hj : sample_rate_to_index r = some j) :
    VbanHeader.new name rate channels codec =
      .error "Unsupported sample rate" ∧
    (∀ h : VbanHeader, h.sample_rate_index = i →
        h.sample_rate = SAMPLE_RATES.getD i 0) ∧
    SAMPLE_RATES.getD j 0 = r := by
  refine ⟨?_, ?_, (sample_rate_to_index_some hj).2⟩
  · unfold VbanHeader.new
    rw [sample_rate_to_index_none hrate]
  · intro h hh
    have hlen : SAMPLE_RATES.length = 20 := rfl
    unfold VbanHeader.sample_rate
    rw [hh, land31_self i (by omega), if_pos hi]

/-- C10 witness: rate 12345 is rejected; index 3 maps back to 48000 Hz;
`sample_rate_to_index 44100 = some 16` points back to 44100. -/
theorem sample_rate_table_strict_witness :
    VbanHeader.new [116, 101, 115, 116] 12345 2 .pcm16 =
      .error "Unsupported sample rate" ∧
    (∀ h : VbanHeader, h.sample_rate_index = 3 →
        h.sample_rate = SAMPLE_RATES.getD 3 0) ∧
    SAMPLE_RATES.getD 16 0 = 44100 :=
  sample_rate_table_strict [116, 101, 115, 116] 12345 2 .pcm16 3 44100 16
    (by decide) (by decide) (by decide)

/-! ## Round-trip of the codec -/

theorem getD_append_len16 (l m : List Nat) (hl : l.length = 16) (k d : Nat) :
    (l ++ m).getD (16 + k) d = m.getD k d := by
  rw [List.getD_eq_getElem?_getD, List.getElem?_append_right (by omega),
    List.getD_eq_getElem?_getD, hl]
  simp

/-- Wire-level inverse: decoding an encoded header recovers every stored
field (the frame counter as its little-endian byte recomposition). -/
theorem decode_encode (h : VbanHeader) (spf : Nat)
    (hidx : h.sample_rate_index < 32)
    (hname : h.stream_name.length = 16) :
    VbanHeader.decode (h.encode spf) = .ok
      { sample_rate_index := h.sample_rate_index
        samples_per_frame := (spf - 1) &&& 255
        channels := h.channels
        codec := h.codec
        stream_name := h.stream_name
        frame_counter := h.frame_counter % 256 +
          256 * (h.frame_counter / 256 % 256) +
          65536 * (h.frame_counter / 65536 % 256) +
          16777216 * (h.frame_counter / 16777216 % 256) } := by
  have hl31 : h.sample_rate_index &&& 31 = h.sample_rate_index :=
    land31_self _ hidx
  have hl224 : h.sample_rate_index &&& 224 = 0 := land224_zero _ hidx
  have henc : h.encode spf = 86 :: 66 :: 65 :: 78 ::
      (h.sample_rate_index &&& 31) :: ((spf - 1) &&& 255) :: h.channels ::
      h.codec :: (h.stream_name ++ u32le h.frame_counter) := by
    simp [VbanHeader.encode, VBAN_MAGIC]
  rw [henc, hl31]
  have hL : (86 :: 66 :: 65 :: 78 :: h.sample_rate_index ::
      ((spf - 1) &&& 255) :: h.channels :: h.codec ::
      (h.stream_name ++ u32le h.frame_counter)).length = 28 := by
    simp [hname, u32le]
  unfold VbanHeader.decode
  rw [if_neg (by rw [hL]; norm_num [VBAN_HEADER_SIZE]),
    if_neg (by simp [VBAN_MAGIC]),
    if_neg (by
      rw [show (86 :: 66 :: 65 :: 78 :: h.sample_rate_index ::
        ((spf - 1) &&& 255) :: h.channels :: h.codec ::
        (h.stream_name ++ u32le h.frame_counter)).getD 4 0 =
          h.sample_rate_index from rfl]
      simp [hl224])]
  simp only [Except.ok.injEq, VbanHeader.mk.injEq]
  refine ⟨?_, rfl, rfl, rfl, ?_, ?_⟩
  · rw [show (86 :: 66 :: 65 :: 78 :: h.sample_rate_index ::
      ((spf - 1) &&& 255) :: h.channels :: h.codec ::
      (h.stream_name ++ u32le h.frame_counter)).getD 4 0 =
        h.sample_rate_index from rfl]
    exact hl31
  · show ((h.stream_name ++ u32le h.frame_counter)).take 16 = h.stream_name
    rw [← hname, List.take_left]
  · rw [show (86 :: 66 :: 65 :: 78 :: h.sample_rate_index ::
      ((spf - 1) &&& 255) :: h.channels :: h.codec ::
      (h.stream_name ++ u32le h.frame_counter)).getD 24 0 =
        (h.stream_name ++ u32le h.frame_counter).getD 16 0 from rfl,
      show (86 :: 66 :: 65 :: 78 :: h.sample_rate_index ::
      ((spf - 1) &&& 255) :: h.channels :: h.codec ::
      (h.stream_name ++ u32le h.frame_counter)).getD 25 0 =
        (h.stream_name ++ u32le h.frame_counter).getD 17 0 from rfl,
      show (86 :: 66 :: 65 :: 78 :: h.sample_rate_index ::
      ((spf - 1) &&& 255) :: h.channels :: h.codec ::
      (h.stream_name ++ u32le h.frame_counter)).getD 26 0 =
        (h.stream_name ++ u32le h.frame_counter).getD 18 0 from rfl,
      show (86 :: 66 :: 65 :: 78 :: h.sample_rate_index ::
      ((spf - 1) &&& 255) :: h.channels :: h.codec ::
      (h.stream_name ++ u32le h.frame_counter)).getD 27 0 =
        (h.stream_name ++ u32le h.frame_counter).getD 19 0 from rfl,
      show (17 : Nat) = 16 + 1 from rfl, show (18 : Nat) = 16 + 2 from rfl,
      show (19 : Nat) = 16 + 3 from rfl,
      show (16 : Nat) = 16 + 0 from rfl,
      getD_append_len16 _ _ hname, getD_append_len16 _ _ hname,
      getD_append_len16 _ _ hname, getD_append_len16 _ _ hname]
    rfl

/-- C1: for every header built by `VbanHeader::new` from a stream name of at
most 15 ASCII characters, a rate in the fixed table, a channel count the
`u8` argument can carry (1 to 255), any codec id, with any `u32` frame
counter stored in it, `decode (encode h n)` succeeds and reproduces the
sample rate, the channel count, the stream name, and the frame counter
exactly. -/
theorem vban_header_roundtrip (name : List Nat) (rate channels : Nat)
    (codec : VbanCodec) (fc spf : Nat)
    (hname : name.length ≤ 15) (hbytes : ∀ b ∈ name, 0 < b ∧ b < 128)
    (hrate : rate ∈ SAMPLE_RATES) (hch1 : 1 ≤ channels) (hch : channels ≤ 255)
    (hfc : fc < 4294967296) :
    ∃ h d, VbanHeader.new name rate channels codec = .ok h ∧
      VbanHeader.decode
          (VbanHeader.encode { h with frame_counter := fc } spf) = .ok d ∧
      d.sample_rate = rate ∧ d.num_channels = channels ∧
      d.stream_name = h.stream_name ∧ d.stream_name_str = name ∧
      d.frame_counter = fc := by
  obtain ⟨idx, hidx⟩ := sample_rate_to_index_mem hrate
  obtain ⟨hlt, hget⟩ := sample_rate_to_index_some hidx
  have hlen20 : SAMPLE_RATES.length = 20 := rfl
  have hnew : VbanHeader.new name rate channels codec = .ok
      { sample_rate_index := idx
        samples_per_frame := 0
        channels := channels - 1
        codec := codec.toByte
        stream_name := name ++ List.replicate (16 - name.length) 0
        frame_counter := 0 } := by
    unfold VbanHeader.new
    rw [hidx]
    simp only [VBAN_STREAM_NAME_SIZE]
    rw [show min name.length (16 - 1) = name.length by omega,
      List.take_length]
  have hnblen : (name ++ List.replicate (16 - name.length) 0).length = 16 := by
    simp only [List.length_append, List.length_replicate]
    omega
  have hdec := decode_encode
    { sample_rate_index := idx, samples_per_frame := 0,
      channels := channels - 1, codec := codec.toByte,
      stream_name := name ++ List.replicate (16 - name.length) 0,
      frame_counter := fc } spf (show idx < 32 by omega)
    (show (name ++ List.replicate (16 - name.length) 0).length = 16
      from hnblen)
  refine ⟨_, _, hnew, hdec, ?_, ?_, rfl, ?_, ?_⟩
  · unfold VbanHeader.sample_rate
    dsimp only
    rw [land31_self idx (by omega), if_pos hlt]
    exact hget
  · unfold VbanHeader.num_channels
    dsimp only
    omega
  · unfold VbanHeader.stream_name_str
    dsimp only
    rw [List.takeWhile_append]
    have htw : name.takeWhile (fun b => b != 0) = name := by
      rw [List.takeWhile_eq_self_iff]
      intro a ha
      have := hbytes a ha
      simp
      omega
    rw [htw, if_pos rfl]
    have hrep : (List.replicate (16 - name.length) (0 : Nat)).takeWhile
        (fun b => b != 0) = [] := by
      cases hk : 16 - name.length with
      | zero => rfl
      | succ n => simp [List.replicate_succ]
    rw [hrep, List.append_nil]
  · show fc % 256 + 256 * (fc / 256 % 256) + 65536 * (fc / 65536 % 256) +
      16777216 * (fc / 16777216 % 256) = fc
    omega


/-- C1 witness: stream "test", rate 48000, 2 channels, PCM16, frame counter
0x12345678, 256 samples per frame. -/
theorem vban_header_roundtrip_witness :
    ∃ h d, VbanHeader.new [116, 101, 115, 116] 48000 2 .pcm16 = .ok h ∧
      VbanHeader.decode
          (VbanHeader.encode { h with frame_counter := 305419896 } 256) =
        .ok d ∧
      d.sample_rate = 48000 ∧ d.num_channels = 2 ∧
      d.stream_name = h.stream_name ∧
      d.stream_name_str = [116, 101, 115, 116] ∧
      d.frame_counter = 305419896 :=
  vban_header_roundtrip [116, 101, 115, 116] 48000 2 .pcm16 305419896 256
    (by decide) (by decide) (by decide) (by decide) (by decide) (by decide)

end CameraBox
